import Mathlib

/-!
Verification development for the Tenable VM Terraform provider's API
client and reconciliation logic (client.go and the data-source Read
methods).  The Go code is shallowly embedded: JSON values decoded by
encoding/json become an inductive type, HTTP effects become explicit
parameters (a response record, or server functions returning
Except String), and each client method's pure core becomes a Lean
function mirroring the Go control flow line by line.
-/

namespace TenableVM

/-- Values of a decoded JSON document as the Go code observes them
through interface-typed maps.  The client's numeric switches
distinguish a value carried as a Go float64 from one carried as a Go
int (tests build maps with ints; real decoding yields float64), so
both forms appear here.  `jfloat n` models a float64 whose value is
exactly the integer `n` - the only numeric shape the client's
`int(...)` conversions are exercised with. -/
inductive JVal where
  | jnull
  | jbool (b : Bool)
  | jint (n : Int)
  | jfloat (n : Int)
  | jstr (s : String)
deriving Repr, DecidableEq

/-- A decoded JSON object: Go's `map[string]interface` with string
keys.  Keys are unique in a decoded Go map; lookup takes the first
binding. -/
abbrev JObj := List (String × JVal)

/-- Key lookup in a decoded object, modelling Go's `m[k]` read. -/
def jlookup (m : JObj) (k : String) : Option JVal :=
  m.lookup k

/-- Credentials held by the client (client.go, type Client).  The
http.Client handle carries no data the claims depend on. -/
structure Client where
  accessKey : String
  secretKey : String
deriving Repr, DecidableEq

/-- Fixed base endpoint (client.go, const baseURL). -/
def baseURL : String := "https://cloud.tenable.com"

/-- Model of strings.TrimRight with cutset "/". -/
def trimRightSlashes (s : String) : String :=
  s.dropRightWhile (fun c => c == '/')

/-- Model of strings.TrimLeft with cutset "/". -/
def trimLeftSlashes (s : String) : String :=
  s.dropWhile (fun c => c == '/')

/-- An outgoing HTTP request as newRequest builds it: method, joined
URL, the two headers it sets, and the optional JSON body. -/
structure Request where
  method : String
  url : String
  contentType : String
  xApiKeys : String
  body : Option JVal
deriving Repr, DecidableEq

/-- Client.newRequest (client.go lines 32-54): joins the base URL and
path, then sets Content-Type and the X-ApiKeys header built by
fmt.Sprintf from the literal pattern accessKey=%s; secretKey=%s; . -/
def Client.newRequest (c : Client) (method path : String) (body : Option JVal) : Request :=
  { method := method
  , url := trimRightSlashes baseURL ++ "/" ++ trimLeftSlashes path
  , contentType := "application/json"
  , xApiKeys := "accessKey=" ++ c.accessKey ++ "; secretKey=" ++ c.secretKey ++ ";"
  , body := body }

/-- An HTTP response as Client.do observes it: numeric status code,
status text (Go's resp.Status), and the raw body text. -/
structure HttpResponse where
  statusCode : Nat
  status : String
  body : String
deriving Repr, DecidableEq

/-- Client.do (client.go lines 60-75) after a successful round trip.
A non-2xx status yields the fmt.Errorf message with status text and
raw body; otherwise, with no target, the body is discarded; with a
target, the supplied decoder (modelling json.Decoder.Decode into the
target's shape) runs on the body and its failure is returned. -/
def doExec (α : Type) (resp : HttpResponse) (target : Option (String → Except String α)) :
    Except String (Option α) :=
  if resp.statusCode < 200 ∨ 300 ≤ resp.statusCode then
    .error ("API error: " ++ resp.status ++ ": " ++ resp.body)
  else
    match target with
    | none => .ok none
    | some dec =>
      match dec resp.body with
      | .error e => .error e
      | .ok a => .ok (some a)

/-- Numeric field extraction shared by the decoders in client.go: a
type switch accepting float64 or int and converting to int, leaving
the zero value 0 when the key is absent or has another type. -/
def numField (m : JObj) (k : String) : Int :=
  match jlookup m k with
  | some (.jint n) => n
  | some (.jfloat n) => n
  | _ => 0

/-- String field extraction shared by the decoders in client.go: a
string type assertion, leaving the zero value "" when the key is
absent or has another type. -/
def strField (m : JObj) (k : String) : String :=
  match jlookup m k with
  | some (.jstr s) => s
  | _ => ""

/-- Enabled extraction in GetUser and ListUsers: assigned only when
the key holds a bool, otherwise left at the zero value false. -/
def enabledField (m : JObj) : Bool :=
  match jlookup m "enabled" with
  | some (.jbool b) => b
  | _ => false

/-- Enabled extraction in CreateUser (client.go lines 180-186): a
present bool is taken; a present non-bool leaves the zero value
false; an absent key defaults to true. -/
def enabledFieldCreate (m : JObj) : Bool :=
  match jlookup m "enabled" with
  | some (.jbool b) => b
  | some _ => false
  | none => true

/-- User record (client.go, type User). -/
structure User where
  id : Int
  uuid : String
  username : String
  name : String
  email : String
  permissions : Int
  enabled : Bool
  raw : JObj
deriving Repr, DecidableEq

/-- Role record (client.go, type Role). -/
structure Role where
  id : Int
  uuid : String
  name : String
  description : String
  raw : JObj
deriving Repr, DecidableEq

/-- Group record (client.go, type Group). -/
structure Group where
  id : Int
  uuid : String
  name : String
  description : String
  raw : JObj
deriving Repr, DecidableEq

/-- Decoding of one user object as done in GetUser and per element in
ListUsers (client.go lines 208-242 and 266-310): field-by-field
extraction with the raw map retained. -/
def userOfResp (m : JObj) : User :=
  { id := numField m "id"
  , uuid := strField m "uuid"
  , username := strField m "username"
  , name := strField m "name"
  , email := strField m "email"
  , permissions := numField m "permissions"
  , enabled := enabledField m
  , raw := m }

/-- Decoding of the create response in CreateUser (client.go lines
143-186): identical to userOfResp except that an absent enabled key
defaults to true. -/
def userOfCreateResp (m : JObj) : User :=
  { userOfResp m with enabled := enabledFieldCreate m }

/-- Decoding of one role object in ListRoles (client.go lines 329-355). -/
def roleOfResp (m : JObj) : Role :=
  { id := numField m "id"
  , uuid := strField m "uuid"
  , name := strField m "name"
  , description := strField m "description"
  , raw := m }

/-- Decoding of one group object in ListGroups (client.go lines 375-401). -/
def groupOfResp (m : JObj) : Group :=
  { id := numField m "id"
  , uuid := strField m "uuid"
  , name := strField m "name"
  , description := strField m "description"
  , raw := m }

/-- Path of SetUserEnabled's PUT (client.go line 463, fmt.Sprintf
with users/%d/enabled). -/
def setUserEnabledPath (id : Int) : String :=
  "users/" ++ toString id ++ "/enabled"

/-- Body of SetUserEnabled's PUT (client.go lines 460-462): a single
enabled key. -/
def setUserEnabledPayload (enabled : Bool) : JObj :=
  [("enabled", .jbool enabled)]

/-- Tail of CreateUser after the POST round trip has produced the
decoded response map `resp` (client.go lines 143-195).  The
SetUserEnabled round trip is abstracted to `setEnabled`, a server
function from the arguments of the call to its outcome.  The result
pairs CreateUser's return value with the list of SetUserEnabled calls
issued, each recorded as the request path and PUT body. -/
def createUserFinish (resp : JObj) (enabled : Bool)
    (setEnabled : Int → Bool → Except String Unit) :
    Except String (User × List (String × JObj)) :=
  let user := userOfCreateResp resp
  if user.id ≠ 0 ∧ user.enabled ≠ enabled then
    match setEnabled user.id enabled with
    | .error e => .error e
    | .ok _ =>
      .ok ({ user with enabled := enabled },
           [(setUserEnabledPath user.id, setUserEnabledPayload enabled)])
  else
    .ok (user, [])

/-- Assignment `m[k] = v` on a Go map, observed through jlookup: the
first binding of `k` is replaced, or the binding appended. -/
def mapSet (m : JObj) (k : String) (v : JVal) : JObj :=
  match m with
  | [] => [(k, v)]
  | (k₀, v₀) :: rest => if k = k₀ then (k, v) :: rest else (k₀, v₀) :: mapSet rest k v

/-- Payload built by UpdateUser (client.go lines 416-433): the four
keys are first assigned from the current record, then each supplied
override replaces its key, in the code's order. -/
def updatePayload (current : User) (permissions : Option Int)
    (name email : Option String) (enabled : Option Bool) : JObj :=
  let p0 := mapSet [] "permissions" (.jint current.permissions)
  let p1 := mapSet p0 "enabled" (.jbool current.enabled)
  let p2 := mapSet p1 "email" (.jstr current.email)
  let p3 := mapSet p2 "name" (.jstr current.name)
  let p4 := match permissions with
    | some v => mapSet p3 "permissions" (.jint v)
    | none => p3
  let p5 := match enabled with
    | some v => mapSet p4 "enabled" (.jbool v)
    | none => p4
  let p6 := match email with
    | some v => mapSet p5 "email" (.jstr v)
    | none => p5
  match name with
  | some v => mapSet p6 "name" (.jstr v)
  | none => p6

/-- UpdateUser (client.go lines 410-444) with its three HTTP round
trips abstracted to server values: `getBefore` and `getAfter` are the
decoded maps (or errors) of the GET before and after the PUT, and
`put` maps the PUT payload to the decoded PUT response (or error).
The result pairs UpdateUser's return value with the list of PUT
payloads sent to users/<id>. -/
def updateUser (getBefore : Except String JObj) (put : JObj → Except String JObj)
    (getAfter : Except String JObj) (permissions : Option Int)
    (name email : Option String) (enabled : Option Bool) :
    Except String User × List JObj :=
  match getBefore with
  | .error e => (.error e, [])
  | .ok m =>
    let current := userOfResp m
    let payload := updatePayload current permissions name email enabled
    match put payload with
    | .error e => (.error e, [payload])
    | .ok _ =>
      match getAfter with
      | .error e => (.error e, [payload])
      | .ok m2 => (.ok (userOfResp m2), [payload])

/-- Case folding of one character: an ASCII capital is lowered, any
other character kept. -/
def foldChar (c : Char) : Char :=
  if 'A' ≤ c ∧ c ≤ 'Z' then Char.ofNat (c.toNat + 32) else c

/-- Model of strings.EqualFold as used on role and group names:
case-insensitive equality by case folding each character (the two
functions agree on the ASCII names the provider handles). -/
def eqFold (s t : String) : Bool :=
  s.data.map foldChar == t.data.map foldChar

/-- Value of a run of decimal digits, rejecting any other character. -/
def digitsValAux : List Char → Nat → Option Nat
  | [], acc => some acc
  | c :: cs, acc =>
    if c.isDigit then digitsValAux cs (acc * 10 + (c.toNat - 48)) else none

/-- Model of strconv.Atoi as the data sources use it on an id string:
an optional sign followed by at least one decimal digit, anything
else rejected (the int64 overflow bound is not modelled; the ids
exercised are far below it). -/
def atoi (s : String) : Option Int :=
  match s.data with
  | [] => none
  | '-' :: cs =>
    match cs with
    | [] => none
    | _ :: _ => (digitsValAux cs 0).map (fun n => -(n : Int))
  | '+' :: cs =>
    match cs with
    | [] => none
    | _ :: _ => (digitsValAux cs 0).map (fun n => (n : Int))
  | cs => (digitsValAux cs 0).map (fun n => (n : Int))

/-- Outcome of a data source Read: a found record, the invalid-id
diagnostic, a propagated client error, the not-found diagnostic, or
the missing-selector diagnostic. -/
inductive ReadOutcome (α : Type) where
  | found (a : α)
  | invalidID
  | clientError (e : String)
  | notFound
  | missingSelector
deriving Repr, DecidableEq

/-- Name branch of roleDataSource.Read (data_source_role.go): when
the name selector is present and non-empty, list the roles and take
the first whose name matches under strings.EqualFold; an unset or
empty selector yields the missing-selector diagnostic.  An unknown
or null config value is modelled as none. -/
def roleReadByName (listRoles : Except String (List Role)) (nameSel : Option String) :
    ReadOutcome Role :=
  match nameSel with
  | some nm =>
    if nm ≠ "" then
      match listRoles with
      | .error e => .clientError e
      | .ok roles =>
        match roles.find? (fun r => eqFold r.name nm) with
        | some r => .found r
        | none => .notFound
    else .missingSelector
  | none => .missingSelector

/-- Selector logic of roleDataSource.Read (data_source_role.go lines
116-173): a present non-empty id selector is parsed with
strconv.Atoi (the atoi model above) and
looked up by exact id equality over ListRoles; otherwise the name
branch runs. -/
def roleRead (listRoles : Except String (List Role)) (idSel nameSel : Option String) :
    ReadOutcome Role :=
  match idSel with
  | some idStr =>
    if idStr ≠ "" then
      match atoi idStr with
      | none => .invalidID
      | some id =>
        match listRoles with
        | .error e => .clientError e
        | .ok roles =>
          match roles.find? (fun r => r.id == id) with
          | some r => .found r
          | none => .notFound
    else roleReadByName listRoles nameSel
  | none => roleReadByName listRoles nameSel

/-- Name branch of groupDataSource.Read: identical in structure to
the role name branch, matching under strings.EqualFold. -/
def groupReadByName (listGroups : Except String (List Group)) (nameSel : Option String) :
    ReadOutcome Group :=
  match nameSel with
  | some nm =>
    if nm ≠ "" then
      match listGroups with
      | .error e => .clientError e
      | .ok groups =>
        match groups.find? (fun g => eqFold g.name nm) with
        | some g => .found g
        | none => .notFound
    else .missingSelector
  | none => .missingSelector

/-- Selector logic of groupDataSource.Read: id takes precedence and
is matched exactly over ListGroups; otherwise the name branch runs. -/
def groupRead (listGroups : Except String (List Group)) (idSel nameSel : Option String) :
    ReadOutcome Group :=
  match idSel with
  | some idStr =>
    if idStr ≠ "" then
      match atoi idStr with
      | none => .invalidID
      | some id =>
        match listGroups with
        | .error e => .clientError e
        | .ok groups =>
          match groups.find? (fun g => g.id == id) with
          | some g => .found g
          | none => .notFound
    else groupReadByName listGroups nameSel
  | none => groupReadByName listGroups nameSel

/-- Username branch of userDataSource.Read (data_source_user.go lines
165-187): list the users and take the first whose username equals the
selector by plain Go string equality. -/
def userReadByUsername (listUsers : Except String (List User)) (usernameSel : Option String) :
    ReadOutcome User :=
  match usernameSel with
  | some un =>
    if un ≠ "" then
      match listUsers with
      | .error e => .clientError e
      | .ok users =>
        match users.find? (fun u => u.username == un) with
        | some u => .found u
        | none => .notFound
    else .missingSelector
  | none => .missingSelector

/-- Selector logic of userDataSource.Read (data_source_user.go lines
144-187): a present non-empty id selector is parsed and resolved
through GetUser, whose decoded response map (or error) the server
function `getUser` supplies; otherwise the username branch runs. -/
def userRead (getUser : Int → Except String JObj)
    (listUsers : Except String (List User)) (idSel usernameSel : Option String) :
    ReadOutcome User :=
  match idSel with
  | some idStr =>
    if idStr ≠ "" then
      match atoi idStr with
      | none => .invalidID
      | some id =>
        match getUser id with
        | .error e => .clientError e
        | .ok m => .found (userOfResp m)
    else userReadByUsername listUsers usernameSel
  | none => userReadByUsername listUsers usernameSel

/-- Claim C1: every request built by the client carries an X-ApiKeys
header equal to exactly "accessKey=" followed by the access key,
"; secretKey=" followed by the secret key, and a trailing ";", and a
Content-Type header equal to "application/json". -/
theorem newRequest_headers (access secret method path : String) (body : Option JVal) :
    ((Client.mk access secret).newRequest method path body).xApiKeys
        = "accessKey=" ++ access ++ "; secretKey=" ++ secret ++ ";"
    ∧ ((Client.mk access secret).newRequest method path body).contentType
        = "application/json" :=
  ⟨rfl, rfl⟩

/-- Claim C5: for every executed request, a status outside 200-299
yields an error message carrying both the status text and the raw
body while the decoder is never consulted (the outcome is the same
for every target); a 2xx status with no target succeeds discarding
the body; a 2xx status with a target runs the decoder on the body,
propagating its failure and returning its success. -/
theorem do_status_and_decode (α : Type) (resp : HttpResponse) :
    ((resp.statusCode < 200 ∨ 300 ≤ resp.statusCode) →
        ∀ target : Option (String → Except String α),
          doExec α resp target
            = .error ("API error: " ++ resp.status ++ ": " ++ resp.body))
  ∧ (200 ≤ resp.statusCode → resp.statusCode < 300 →
        doExec α resp none = .ok none
      ∧ (∀ dec e, dec resp.body = .error e → doExec α resp (some dec) = .error e)
      ∧ (∀ dec a, dec resp.body = .ok a → doExec α resp (some dec) = .ok (some a))) := by
  constructor
  · intro h target
    unfold doExec
    rw [if_pos h]
  · intro h1 h2
    have h : ¬(resp.statusCode < 200 ∨ 300 ≤ resp.statusCode) := by omega
    refine ⟨?_, ?_, ?_⟩
    · unfold doExec
      rw [if_neg h]
    · intro dec e hdec
      unfold doExec
      rw [if_neg h]
      simp [hdec]
    · intro dec a hdec
      unfold doExec
      rw [if_neg h]
      simp [hdec]

/-- Witness for C5 at a concrete 404 response. -/
theorem do_status_and_decode_witness :
    doExec Unit { statusCode := 404, status := "404 Not Found", body := "missing" } none
      = .error ("API error: " ++ "404 Not Found" ++ ": " ++ "missing") :=
  (do_status_and_decode Unit
      { statusCode := 404, status := "404 Not Found", body := "missing" }).1
    (Or.inr (by decide)) none

/-- Claim C6: for each numeric field of the decoded records - the id
and permissions of a User, the id of a Role, the id of a Group -
decoding a map carrying the field as the float64 form of an integer n
yields the same field value as decoding the map carrying it as the
int form, namely n itself. -/
theorem numeric_field_coercion (n : Int) (rest : JObj) :
    ((userOfResp (("id", .jfloat n) :: rest)).id
        = (userOfResp (("id", .jint n) :: rest)).id
      ∧ (userOfResp (("id", .jint n) :: rest)).id = n)
  ∧ ((userOfResp (("permissions", .jfloat n) :: rest)).permissions
        = (userOfResp (("permissions", .jint n) :: rest)).permissions
      ∧ (userOfResp (("permissions", .jint n) :: rest)).permissions = n)
  ∧ ((roleOfResp (("id", .jfloat n) :: rest)).id
        = (roleOfResp (("id", .jint n) :: rest)).id
      ∧ (roleOfResp (("id", .jint n) :: rest)).id = n)
  ∧ ((groupOfResp (("id", .jfloat n) :: rest)).id
        = (groupOfResp (("id", .jint n) :: rest)).id
      ∧ (groupOfResp (("id", .jint n) :: rest)).id = n) :=
  ⟨⟨rfl, rfl⟩, ⟨rfl, rfl⟩, ⟨rfl, rfl⟩, ⟨rfl, rfl⟩⟩

/-- Claim C8: decoding a create response with no enabled key yields a
User with enabled defaulted to true; a present boolean enabled value
is taken as is. -/
theorem create_enabled_default (m : JObj) :
    (jlookup m "enabled" = none → (userOfCreateResp m).enabled = true)
  ∧ ∀ b, jlookup m "enabled" = some (.jbool b) → (userOfCreateResp m).enabled = b := by
  constructor
  · intro h
    simp [userOfCreateResp, enabledFieldCreate, h]
  · intro b h
    simp [userOfCreateResp, enabledFieldCreate, h]

/-- Witness for C8 at an empty response map and at one carrying
enabled false. -/
theorem create_enabled_default_witness :
    (userOfCreateResp []).enabled = true
  ∧ (userOfCreateResp [("enabled", .jbool false)]).enabled = false :=
  ⟨(create_enabled_default []).1 rfl,
   (create_enabled_default [("enabled", .jbool false)]).2 false rfl⟩

/-- Claim C9: when the create response decodes to a user id of 0, no
SetUserEnabled call is issued - whatever outcome the enable endpoint
would give - and create returns the decoded user with its enabled
value unreconciled. -/
theorem create_id_zero_skips_reconcile (resp : JObj) (enabled : Bool)
    (setEnabled : Int → Bool → Except String Unit)
    (hid : numField resp "id" = 0) :
    createUserFinish resp enabled setEnabled = .ok (userOfCreateResp resp, []) := by
  have huser : (userOfCreateResp resp).id = 0 := by
    simp [userOfCreateResp, userOfResp, hid]
  simp [createUserFinish, huser]

/-- Witness for C9: an id-less response reporting enabled true, with
a requested enabled of false and an enable endpoint that would fail. -/
theorem create_id_zero_skips_reconcile_witness :
    createUserFinish [("enabled", .jbool true)] false (fun _ _ => .error "enable failed")
      = .ok (userOfCreateResp [("enabled", .jbool true)], []) :=
  create_id_zero_skips_reconcile _ _ _ rfl

/-- Claim C10: when the preliminary GET of the current record fails,
UpdateUser returns that error and sends no PUT, for every server
behaviour and every combination of overrides. -/
theorem update_get_error_no_put (e : String) (put : JObj → Except String JObj)
    (getAfter : Except String JObj) (permissions : Option Int)
    (name email : Option String) (enabled : Option Bool) :
    updateUser (.error e) put getAfter permissions name email enabled = (.error e, []) :=
  rfl

/-- Claim C2 counterexample: a create response reporting enabled true
but decoding to user id 0 - here, an absent id key - with a requested
enabled of false returns the record with enabled still true and
issues no follow-up call, against the claim's unconditional reading. -/
theorem create_reconcile_cex :
    createUserFinish [("enabled", .jbool true)] false (fun _ _ => .ok ())
      = .ok (userOfCreateResp [("enabled", .jbool true)], [])
  ∧ (userOfCreateResp [("enabled", .jbool true)]).enabled = true := by
  constructor <;> rfl

/-- Claim C2 as amended: when the requested enabled flag is false,
the create response reports enabled true or omits the key, and the
decoded user id is nonzero, the returned record has enabled false
and exactly one follow-up PUT to users/<id>/enabled with an
enabled-false body was issued; a failure of that call becomes the
failure of the whole create. -/
theorem create_reconcile (resp : JObj)
    (setEnabled : Int → Bool → Except String Unit)
    (hid : numField resp "id" ≠ 0)
    (hen : jlookup resp "enabled" = some (.jbool true) ∨ jlookup resp "enabled" = none) :
    (setEnabled (numField resp "id") false = .ok () →
        createUserFinish resp false setEnabled
          = .ok ({ userOfCreateResp resp with enabled := false },
                 [(setUserEnabledPath (numField resp "id"), setUserEnabledPayload false)]))
  ∧ ∀ e, setEnabled (numField resp "id") false = .error e →
        createUserFinish resp false setEnabled = .error e := by
  have hub : (userOfCreateResp resp).enabled = true := by
    rcases hen with h | h <;> simp [userOfCreateResp, enabledFieldCreate, h]
  have hui : (userOfCreateResp resp).id = numField resp "id" := by
    simp [userOfCreateResp, userOfResp]
  constructor
  · intro hok
    simp [createUserFinish, hub, hui, hid, hok]
  · intro e herr
    simp [createUserFinish, hub, hui, hid, herr]

/-- Witness for the amended C2 at a response with id 7 and enabled
true, a requested enabled of false, and a succeeding enable endpoint. -/
theorem create_reconcile_witness :
    numField [("id", JVal.jint 7), ("enabled", JVal.jbool true)] "id" ≠ 0
  ∧ createUserFinish [("id", JVal.jint 7), ("enabled", JVal.jbool true)] false
        (fun _ _ => .ok ())
      = .ok ({ userOfCreateResp [("id", JVal.jint 7), ("enabled", JVal.jbool true)] with
                 enabled := false },
             [(setUserEnabledPath
                 (numField [("id", JVal.jint 7), ("enabled", JVal.jbool true)] "id"),
               setUserEnabledPayload false)]) :=
  ⟨by decide,
   (create_reconcile [("id", JVal.jint 7), ("enabled", JVal.jbool true)]
       (fun _ _ => .ok ()) (by decide) (Or.inl rfl)).1 rfl⟩

/-- Normal form of the UpdateUser payload: for any current record and
any combination of overrides, the built map binds exactly the four
keys, each to the override when supplied and to the current value
otherwise. -/
theorem updatePayload_eq (current : User) (permissions : Option Int)
    (name email : Option String) (enabled : Option Bool) :
    updatePayload current permissions name email enabled
      = [("permissions", .jint (permissions.getD current.permissions)),
         ("enabled", .jbool (enabled.getD current.enabled)),
         ("email", .jstr (email.getD current.email)),
         ("name", .jstr (name.getD current.name))] := by
  rcases permissions with _ | p <;> rcases enabled with _ | en <;>
    rcases email with _ | em <;> rcases name with _ | nm <;> rfl

/-- Claim C4: the PUT payload of UpdateUser always binds all four
keys, each to the current record's value unless the corresponding
override is supplied, in which case to the override; and when the PUT
round trip succeeds - with any response body pm - the returned User
is decoded from the fresh GET issued after the PUT. -/
theorem update_merge_and_refetch (m m2 pm : JObj) (put : JObj → Except String JObj)
    (permissions : Option Int) (name email : Option String) (enabled : Option Bool) :
    (jlookup (updatePayload (userOfResp m) permissions name email enabled) "permissions"
        = some (.jint (permissions.getD (userOfResp m).permissions))
      ∧ jlookup (updatePayload (userOfResp m) permissions name email enabled) "enabled"
        = some (.jbool (enabled.getD (userOfResp m).enabled))
      ∧ jlookup (updatePayload (userOfResp m) permissions name email enabled) "email"
        = some (.jstr (email.getD (userOfResp m).email))
      ∧ jlookup (updatePayload (userOfResp m) permissions name email enabled) "name"
        = some (.jstr (name.getD (userOfResp m).name)))
  ∧ (put (updatePayload (userOfResp m) permissions name email enabled) = .ok pm →
      updateUser (.ok m) put (.ok m2) permissions name email enabled
        = (.ok (userOfResp m2),
           [updatePayload (userOfResp m) permissions name email enabled])) := by
  constructor
  · rw [updatePayload_eq]
    exact ⟨rfl, rfl, rfl, rfl⟩
  · intro hput
    simp [updateUser, hput]

/-- Witness for C4 at the spec's scenario: current record with
permissions 16, enabled true, name Alice, email a at x.com, and an
update overriding only permissions to 32. -/
theorem update_merge_and_refetch_witness :
    updateUser
        (.ok [("id", JVal.jint 1), ("username", JVal.jstr "alice"),
              ("name", JVal.jstr "Alice"), ("email", JVal.jstr "a@x.com"),
              ("permissions", JVal.jint 16), ("enabled", JVal.jbool true)])
        (fun _ => .ok [])
        (.ok [("id", JVal.jint 1), ("permissions", JVal.jint 32)])
        (some 32) none none none
      = (.ok (userOfResp [("id", JVal.jint 1), ("permissions", JVal.jint 32)]),
         [updatePayload
            (userOfResp [("id", JVal.jint 1), ("username", JVal.jstr "alice"),
                         ("name", JVal.jstr "Alice"), ("email", JVal.jstr "a@x.com"),
                         ("permissions", JVal.jint 16), ("enabled", JVal.jbool true)])
            (some 32) none none none]) :=
  (update_merge_and_refetch
      [("id", JVal.jint 1), ("username", JVal.jstr "alice"),
       ("name", JVal.jstr "Alice"), ("email", JVal.jstr "a@x.com"),
       ("permissions", JVal.jint 16), ("enabled", JVal.jbool true)]
      [("id", JVal.jint 1), ("permissions", JVal.jint 32)]
      [] (fun _ => .ok []) (some 32) none none none).2 rfl

/-- A stored user whose username is the lowercase form of the C3
selector. -/
def lowercaseAdminsUser : User :=
  { id := 1, uuid := "", username := "admins", name := "", email := "",
    permissions := 0, enabled := false, raw := [] }

/-- Claim C3 counterexample: the user lookup with selector Admins
does not match a stored user named admins - the username branch
compares by exact case-sensitive equality, so the case-insensitive
reading fails for users. -/
theorem name_match_user_cex :
    userRead (fun _ => .error "unused") (.ok [lowercaseAdminsUser]) none (some "Admins")
      = .notFound := by
  decide

/-- Claim C3 as amended: for roles and groups the name selector
matches a stored record exactly when the names are equal ignoring
letter case - not found exactly when no stored name folds to the
selector, and any found record folds to it; for users the username
selector matches only by exact case-sensitive string equality. -/
theorem name_match_semantics (roles : List Role) (groups : List Group)
    (users : List User) (sel : String) (hsel : sel ≠ "") :
    (roleReadByName (.ok roles) (some sel) = .notFound
        ↔ ∀ r ∈ roles, eqFold r.name sel = false)
  ∧ (∀ r, roleReadByName (.ok roles) (some sel) = .found r → eqFold r.name sel = true)
  ∧ (groupReadByName (.ok groups) (some sel) = .notFound
        ↔ ∀ g ∈ groups, eqFold g.name sel = false)
  ∧ (∀ g, groupReadByName (.ok groups) (some sel) = .found g → eqFold g.name sel = true)
  ∧ (userReadByUsername (.ok users) (some sel) = .notFound
        ↔ ∀ u ∈ users, (u.username == sel) = false)
  ∧ (∀ u, userReadByUsername (.ok users) (some sel) = .found u → u.username = sel) := by
  have hroleS : ∀ r0, roles.find? (fun x => eqFold x.name sel) = some r0 →
      roleReadByName (.ok roles) (some sel) = .found r0 := by
    intro r0 hfr
    simp [roleReadByName, hsel, hfr]
  have hroleN : roles.find? (fun x => eqFold x.name sel) = none →
      roleReadByName (.ok roles) (some sel) = .notFound := by
    intro hfr
    simp [roleReadByName, hsel, hfr]
  have hgroupS : ∀ g0, groups.find? (fun x => eqFold x.name sel) = some g0 →
      groupReadByName (.ok groups) (some sel) = .found g0 := by
    intro g0 hfg
    simp [groupReadByName, hsel, hfg]
  have hgroupN : groups.find? (fun x => eqFold x.name sel) = none →
      groupReadByName (.ok groups) (some sel) = .notFound := by
    intro hfg
    simp [groupReadByName, hsel, hfg]
  have huserS : ∀ u0, users.find? (fun x => x.username == sel) = some u0 →
      userReadByUsername (.ok users) (some sel) = .found u0 := by
    intro u0 hfu
    simp [userReadByUsername, hsel, hfu]
  have huserN : users.find? (fun x => x.username == sel) = none →
      userReadByUsername (.ok users) (some sel) = .notFound := by
    intro hfu
    simp [userReadByUsername, hsel, hfu]
  refine ⟨?_, ?_, ?_, ?_, ?_, ?_⟩
  · cases hfr : roles.find? (fun x => eqFold x.name sel) with
    | some r0 =>
      rw [hroleS r0 hfr]
      constructor
      · intro h
        exact ReadOutcome.noConfusion h
      · intro hall
        have hp0 := List.find?_some hfr
        have hp : eqFold r0.name sel = true := hp0
        rw [hall r0 (List.mem_of_find?_eq_some hfr)] at hp
        simp at hp
    | none =>
      rw [hroleN hfr]
      constructor
      · intro _ r hr
        have := List.find?_eq_none.mp hfr r hr
        simpa using this
      · intro _
        rfl
  · intro r h
    cases hfr : roles.find? (fun x => eqFold x.name sel) with
    | some r0 =>
      rw [hroleS r0 hfr] at h
      injection h with h0
      subst h0
      have hp0 := List.find?_some hfr
      exact hp0
    | none =>
      rw [hroleN hfr] at h
      exact ReadOutcome.noConfusion h
  · cases hfg : groups.find? (fun x => eqFold x.name sel) with
    | some g0 =>
      rw [hgroupS g0 hfg]
      constructor
      · intro h
        exact ReadOutcome.noConfusion h
      · intro hall
        have hp0 := List.find?_some hfg
        have hp : eqFold g0.name sel = true := hp0
        rw [hall g0 (List.mem_of_find?_eq_some hfg)] at hp
        simp at hp
    | none =>
      rw [hgroupN hfg]
      constructor
      · intro _ g hg
        have := List.find?_eq_none.mp hfg g hg
        simpa using this
      · intro _
        rfl
  · intro g h
    cases hfg : groups.find? (fun x => eqFold x.name sel) with
    | some g0 =>
      rw [hgroupS g0 hfg] at h
      injection h with h0
      subst h0
      have hp0 := List.find?_some hfg
      exact hp0
    | none =>
      rw [hgroupN hfg] at h
      exact ReadOutcome.noConfusion h
  · cases hfu : users.find? (fun x => x.username == sel) with
    | some u0 =>
      rw [huserS u0 hfu]
      constructor
      · intro h
        exact ReadOutcome.noConfusion h
      · intro hall
        have hp0 := List.find?_some hfu
        have hp : (u0.username == sel) = true := hp0
        rw [hall u0 (List.mem_of_find?_eq_some hfu)] at hp
        simp at hp
    | none =>
      rw [huserN hfu]
      constructor
      · intro _ u hu
        have := List.find?_eq_none.mp hfu u hu
        simpa using this
      · intro _
        rfl
  · intro u h
    cases hfu : users.find? (fun x => x.username == sel) with
    | some u0 =>
      rw [huserS u0 hfu] at h
      injection h with h0
      subst h0
      have hb0 := List.find?_some hfu
      simpa using hb0
    | none =>
      rw [huserN hfu] at h
      exact ReadOutcome.noConfusion h

/-- A stored role named admins, matched case-insensitively. -/
def adminsRole : Role :=
  { id := 3, uuid := "", name := "admins", description := "", raw := [] }

/-- Witness for the amended C3: the selector Admins finds the stored
role named admins, whose name folds equal to the selector. -/
theorem name_match_semantics_witness :
    eqFold adminsRole.name "Admins" = true :=
  (name_match_semantics [adminsRole] [] [] "Admins" (by decide)).2.1 adminsRole (by decide)

/-- Claim C7: with a non-empty id selector the outcome of each of the
role, group and user lookups is independent of the name selector -
and for users even of the list call the username branch would use -
while an absent or empty id selector defers to the name branch. -/
theorem id_precedence (idStr : String) (hid : idStr ≠ "")
    (nameSelA nameSelB nameSelC : Option String)
    (listRoles : Except String (List Role))
    (listGroups : Except String (List Group))
    (getUser : Int → Except String JObj)
    (listUsersA listUsersB : Except String (List User)) :
    (roleRead listRoles (some idStr) nameSelA = roleRead listRoles (some idStr) nameSelB
      ∧ roleRead listRoles none nameSelA = roleReadByName listRoles nameSelA
      ∧ roleRead listRoles (some "") nameSelA = roleReadByName listRoles nameSelA)
  ∧ (groupRead listGroups (some idStr) nameSelA = groupRead listGroups (some idStr) nameSelB
      ∧ groupRead listGroups none nameSelA = groupReadByName listGroups nameSelA
      ∧ groupRead listGroups (some "") nameSelA = groupReadByName listGroups nameSelA)
  ∧ (userRead getUser listUsersA (some idStr) nameSelA
        = userRead getUser listUsersB (some idStr) nameSelC
      ∧ userRead getUser listUsersA none nameSelA = userReadByUsername listUsersA nameSelA
      ∧ userRead getUser listUsersA (some "") nameSelA
        = userReadByUsername listUsersA nameSelA) := by
  refine ⟨⟨?_, rfl, rfl⟩, ⟨?_, rfl, rfl⟩, ⟨?_, rfl, rfl⟩⟩
  · simp [roleRead, hid]
  · simp [groupRead, hid]
  · simp [userRead, hid]

/-- A role with id 1, not matched by the name beta. -/
def roleAlpha : Role :=
  { id := 1, uuid := "", name := "alpha", description := "", raw := [] }

/-- A role with id 2, matched by the name beta. -/
def roleBeta : Role :=
  { id := 2, uuid := "", name := "beta", description := "", raw := [] }

/-- Witness for C7: with id selector 1 and name selector beta - a
name matching the other stored role - the lookup returns the role
with id 1 and agrees with the lookup that has no name selector. -/
theorem id_precedence_witness :
    roleRead (.ok [roleAlpha, roleBeta]) (some "1") (some "beta")
      = roleRead (.ok [roleAlpha, roleBeta]) (some "1") none
  ∧ roleRead (.ok [roleAlpha, roleBeta]) (some "1") (some "beta") = .found roleAlpha :=
  ⟨(id_precedence "1" (by decide) (some "beta") none none
      (.ok [roleAlpha, roleBeta]) (.ok []) (fun _ => .error "unused")
      (.ok []) (.ok [])).1.1,
   by decide⟩

end TenableVM
